import Mathlib

/-!
Verification development for the youtube-music desktop shell core:
the multi-listener header-interception resolver (src/index.js,
`removeContentSecurityPolicy`), the CSP relaxation listener, the plugin
loader (`loadPlugins`), and the song-info extraction pipeline
(src/providers/song-info: `cleanupName`, `getImage`, `handleData`,
`registerProvider`).

JavaScript strings are embedded as `List Char` (`JStr`); `undefined`/`null`
are embedded as `Option.none`; a rejected promise / thrown exception is
embedded as `Option.none` or `Except.error` of the function's result type.
-/

namespace YtMusic

/-- JavaScript strings, embedded as lists of characters. -/
abbrev JStr := List Char

/-- JavaScript `s.endsWith(suf)`: `suf` equals the last `suf.length`
characters of `s`. -/
def jsEndsWith (s suf : JStr) : Bool :=
  decide (s.drop (s.length - suf.length) = suf)

/-- One position test: does `sub` occur in `s` at index `i`? -/
def jsMatchAt (s sub : JStr) (i : Nat) : Bool :=
  decide ((s.drop i).take sub.length = sub)

/-- JavaScript `s.includes(sub)`: `sub` occurs at some index of `s`. -/
def jsIncludes (s sub : JStr) : Bool :=
  (List.range (s.length + 1)).any (jsMatchAt s sub)

/-- JavaScript `s.lastIndexOf(sub)`: the largest index at which `sub`
occurs in `s`, or `-1` when it does not occur. -/
def jsLastIndexOf (s sub : JStr) : Int :=
  match ((List.range (s.length + 1)).filter (jsMatchAt s sub)).getLast? with
  | some i => (i : Int)
  | none => -1

/-- JavaScript `s.slice(0, e)`: a negative end counts from the end of the
string, a nonnegative end is clamped to the length. -/
def jsSliceZero (s : JStr) (e : Int) : JStr :=
  if e < 0 then s.take (((s.length : Int) + e).toNat) else s.take e.toNat

/-- JavaScript truthiness of a possibly-undefined boolean field:
`undefined` is falsy. -/
def jsTruthyBool : Option Bool → Bool
  | some b => b
  | none => false

/-! ### Name cleanup (src/providers/song-info, `cleanupName`) -/

/-- Source list `suffixesToRemove` of promotional suffixes, in order. -/
def suffixesToRemove : List JStr :=
  [" - Topic".toList,
   "VEVO".toList,
   " (Performance Video)".toList,
   " (Official Music Video)".toList,
   " (Official Video)".toList,
   " (Clip officiel)".toList]

/-- The `for`-loop of `cleanupName`: return `artist.slice(0, -suffix.length)`
for the first suffix the name ends with, the name unchanged otherwise. -/
def stripOneSuffix : List JStr → JStr → JStr
  | [], artist => artist
  | suf :: rest, artist =>
    if jsEndsWith artist suf then artist.take (artist.length - suf.length)
    else stripOneSuffix rest artist

/-- Source `cleanupName(artist)`: `if (!artist) return artist;` then strip
the first matching suffix. `none` embeds `null`/`undefined`; the empty
string is falsy in JavaScript and is also returned unchanged. -/
def cleanupName (artist : Option JStr) : Option JStr :=
  match artist with
  | none => none
  | some a => if a = [] then some a else some (stripOneSuffix suffixesToRemove a)

example : cleanupName (some "Artist VEVO VEVO".toList) = some "Artist VEVO ".toList := by decide

example : cleanupName (some "Song - Topic".toList) = some "Song".toList := by decide

example : cleanupName (some "A - Topic - Topic".toList) = some "A - Topic".toList := by decide

/-! ### Header interception resolver (src/index.js, `removeContentSecurityPolicy`)

The source installs, through `electron-better-web-request`, one resolver
for the `onHeadersReceived` multi-listener registry:

    const response = listeners.reduce(
      async (accumulator, listener) => {
        if (accumulator.cancel) { return accumulator; }
        const result = await listener.apply();
        return { ...accumulator, ...result };
      },
      { cancel: false }
    );

The reducing callback is an `async` function, so from the second listener
on, `accumulator` is a pending Promise object, not the resolved record:
reading `accumulator.cancel` on it yields `undefined`, and spreading it
(`{ ...accumulator }`) contributes no fields, because a Promise has no own
enumerable properties.  The embedding keeps track of whether the
accumulator is the initial plain object or a Promise.  Each listener is
embedded by the result record its `apply()` resolves to — `apply()` is
invoked with no arguments, so a listener's result cannot depend on the
accumulator. -/

/-- Response headers as delivered by Electron: a record mapping header
names to lists of string values. -/
abbrev Headers := List (JStr × List JStr)

/-- One listener's (or the resolver's) `{cancel, responseHeaders}` record;
`none` embeds an absent property. -/
structure ListenerResult where
  cancel : Option Bool
  responseHeaders : Option Headers
deriving DecidableEq, Repr

/-- JavaScript object spread `{ ...a, ...b }` restricted to the two fields
of interest: a field present on `b` wins, otherwise `a`'s field is kept. -/
def mergeResult (a b : ListenerResult) : ListenerResult :=
  { cancel := match b.cancel with
      | some c => some c
      | none => a.cancel,
    responseHeaders := match b.responseHeaders with
      | some h => some h
      | none => a.responseHeaders }

/-- The reduce accumulator as JavaScript sees it: either the initial plain
object, or the Promise returned by the previous (async) reduce step,
carrying the record it will eventually resolve to. -/
inductive ReduceAcc where
  | obj (value : ListenerResult)
  | promiseOf (value : ListenerResult)
deriving DecidableEq, Repr

/-- The record an accumulator (or the promise it stands for) resolves to. -/
def ReduceAcc.value : ReduceAcc → ListenerResult
  | .obj v => v
  | .promiseOf v => v

/-- Reading `accumulator.cancel` as a truthiness test: on the plain object
it reads the field; on a Promise the property access yields `undefined`,
which is falsy. -/
def ReduceAcc.cancelTruthy : ReduceAcc → Bool
  | .obj v => jsTruthyBool v.cancel
  | .promiseOf _ => false

/-- Spreading the accumulator, `{ ...accumulator }`: the plain object
contributes its fields; a Promise has no own enumerable properties and
contributes nothing. -/
def ReduceAcc.spreadFields : ReduceAcc → ListenerResult
  | .obj v => v
  | .promiseOf _ => { cancel := none, responseHeaders := none }

/-- One step of the source's reduce, also counting how many listeners have
had `listener.apply()` invoked. -/
def resolverStep (acc : ReduceAcc × Nat) (r : ListenerResult) : ReduceAcc × Nat :=
  if acc.1.cancelTruthy then
    (ReduceAcc.promiseOf acc.1.value, acc.2)
  else
    (ReduceAcc.promiseOf (mergeResult acc.1.spreadFields r), acc.2 + 1)

/-- The initial accumulator `{ cancel: false }`, a plain object. -/
def initialAccumulator : ReduceAcc :=
  ReduceAcc.obj { cancel := some false, responseHeaders := none }

/-- The source resolver: reduce over the registered listeners' results in
registration order. -/
def resolverRun (results : List ListenerResult) : ReduceAcc × Nat :=
  results.foldl resolverStep (initialAccumulator, 0)

/-- The record the resolver's returned promise resolves to. -/
def resolveResponse (results : List ListenerResult) : ListenerResult :=
  (resolverRun results).1.value

/-- Number of listeners actually invoked by the resolver on one event. -/
def invokedCount (results : List ListenerResult) : Nat :=
  (resolverRun results).2

/-- Modelled from the spec: the resolution algorithm as the spec words it —
initialize the accumulator to `{cancel: false}`, await each listener in
registration order, shallow-merge its partial result over the accumulator,
and short-circuit (skipping the remaining listeners) once `cancel` is
true.  This is the comparison definition for C1/C2, not source code. -/
def specResolverStep (acc : ListenerResult × Nat) (r : ListenerResult) : ListenerResult × Nat :=
  if jsTruthyBool acc.1.cancel then acc
  else (mergeResult acc.1 r, acc.2 + 1)

/-- Modelled from the spec: run of the spec's resolution algorithm,
returning the merged record and how many listeners were invoked. -/
def specResolverRun (results : List ListenerResult) : ListenerResult × Nat :=
  results.foldl specResolverStep ({ cancel := some false, responseHeaders := none }, 0)

example :
    resolveResponse [{ cancel := some false, responseHeaders := some [("A".toList, ["1".toList])] },
                     { cancel := some false, responseHeaders := none }] =
      { cancel := some false, responseHeaders := none } := by decide

example :
    (specResolverRun [{ cancel := some false, responseHeaders := some [("A".toList, ["1".toList])] },
                      { cancel := some false, responseHeaders := none }]).1 =
      { cancel := some false, responseHeaders := some [("A".toList, ["1".toList])] } := by decide

/-! ### CSP relaxation listener (src/index.js) -/

/-- Header name checked by the listener. -/
def cspName : JStr := "content-security-policy".toList

/-- Report-only header name checked by the listener. -/
def cspReportOnlyName : JStr := "content-security-policy-report-only".toList

/-- JavaScript property-existence test `!!obj[k]` for a header record whose
values are (always truthy) arrays: exact, case-sensitive key match. -/
def hasHeader (h : Headers) (k : JStr) : Bool :=
  h.any fun p => decide (p.1 = k)

/-- Case-insensitive presence test, used only to state what case-insensitive
recognition of a header name would mean. -/
def hasHeaderCI (h : Headers) (k : JStr) : Bool :=
  h.any fun p => decide (p.1.map Char.toLower = k.map Char.toLower)

/-- JavaScript `delete obj[k]`: remove the exactly-matching key. -/
def deleteHeader (h : Headers) (k : JStr) : Headers :=
  h.filter fun p => !decide (p.1 = k)

/-- Source `onHeadersReceived` listener of `removeContentSecurityPolicy`:
if neither CSP header key is present (exact, case-sensitive property
lookup) call back `{cancel: false}`; otherwise delete both keys and call
back `{cancel: false, responseHeaders}`. -/
def removeCSPListener (responseHeaders : Headers) : ListenerResult :=
  if !hasHeader responseHeaders cspReportOnlyName && !hasHeader responseHeaders cspName then
    { cancel := some false, responseHeaders := none }
  else
    { cancel := some false,
      responseHeaders :=
        some (deleteHeader (deleteHeader responseHeaders cspReportOnlyName) cspName) }

example :
    removeCSPListener [("Content-Security-Policy".toList, ["default-src".toList])] =
      { cancel := some false, responseHeaders := none } := by decide

example :
    removeCSPListener [(cspName, ["default-src".toList]), ("x-a".toList, ["y".toList])] =
      { cancel := some false, responseHeaders := some [("x-a".toList, ["y".toList])] } := by decide

/-! ### Cover image resolution (src/providers/song-info, `getImage`) -/

/-- Decoded native image; the source only observes `isEmpty()`. -/
structure NativeImage where
  isEmpty : Bool
deriving DecidableEq, Repr

/-- Environment for `getImage`: the composite effect of `fetch(src)`,
`result.buffer()` and `nativeImage.createFromBuffer` on one URL.  `none`
embeds a rejected fetch (the rejection propagates, since `getImage` has no
try/catch); `createFromBuffer` itself never throws and yields a
possibly-empty image. -/
structure FetchEnv where
  fetchDecode : JStr → Option NativeImage

/-- The JPEG extension literal used by `getImage`. -/
def jpgExt : JStr := ".jpg".toList

/-- Presence gives a last occurrence: `jsLastIndexOf` returns an index at
which the pattern matches and which leaves room for the pattern. -/
theorem jsMatchAt_of_includes {s sub : JStr} (h : jsIncludes s sub = true) :
    ∃ m : Nat, jsLastIndexOf s sub = (m : Int) ∧ jsMatchAt s sub m = true ∧
      m + sub.length ≤ s.length := by
  unfold jsIncludes at h
  rw [List.any_eq_true] at h
  obtain ⟨i, hi, hmi⟩ := h
  have hne : ((List.range (s.length + 1)).filter (jsMatchAt s sub)) ≠ [] :=
    List.ne_nil_of_mem (List.mem_filter.mpr ⟨hi, hmi⟩)
  refine ⟨((List.range (s.length + 1)).filter (jsMatchAt s sub)).getLast hne, ?_, ?_, ?_⟩
  · unfold jsLastIndexOf
    rw [List.getLast?_eq_getLast_of_ne_nil hne]
  · exact (List.mem_filter.mp (List.getLast_mem hne)).2
  · have hmem := List.mem_filter.mp (List.getLast_mem hne)
    have hlt := List.mem_range.mp hmem.1
    have heq := of_decide_eq_true hmem.2
    have hlen := congrArg List.length heq
    rw [List.length_take, List.length_drop] at hlen
    omega

/-- A match that reaches the end of the string is exactly `jsEndsWith`. -/
theorem jsEndsWith_of_matchAt {s sub : JStr} {m : Nat} (hm : jsMatchAt s sub m = true)
    (hend : m + sub.length = s.length) : jsEndsWith s sub = true := by
  have heq := of_decide_eq_true hm
  have hdl : (s.drop m).length = sub.length := by
    rw [List.length_drop]; omega
  have h1 : (s.drop m).take sub.length = s.drop m :=
    List.take_of_length_le (le_of_eq hdl)
  have h2 : s.drop m = sub := by rw [← h1, heq]
  unfold jsEndsWith
  have hidx : s.length - sub.length = m := by omega
  rw [hidx]
  exact decide_eq_true h2

/-- The slice endpoint used by the retry is the nonnegative `m + 4`. -/
theorem jsSliceZero_last {s : JStr} {m : Nat} (hm : jsLastIndexOf s jpgExt = (m : Int)) :
    jsSliceZero s (jsLastIndexOf s jpgExt + 4) = s.take (m + 4) := by
  rw [hm]
  unfold jsSliceZero
  rw [if_neg (by omega)]
  congr 1

/-- The retry URL is strictly shorter than the original URL. -/
theorem truncLength_lt {s : JStr} (hInc : jsIncludes s jpgExt = true)
    (hEnd : jsEndsWith s jpgExt = false) :
    (jsSliceZero s (jsLastIndexOf s jpgExt + 4)).length < s.length := by
  obtain ⟨m, hm, hmatch, hle⟩ := jsMatchAt_of_includes hInc
  have hjl : jpgExt.length = 4 := by decide
  rw [hjl] at hle
  rw [jsSliceZero_last hm, List.length_take]
  have hne : m + 4 ≠ s.length := by
    intro hcontra
    have hew := jsEndsWith_of_matchAt hmatch (by omega)
    rw [hEnd] at hew
    exact Bool.false_ne_true hew
  omega

/-- The retry URL ends with `.jpg`, so the retry never retries again. -/
theorem trunc_endsWith {s : JStr} (hInc : jsIncludes s jpgExt = true) :
    jsEndsWith (jsSliceZero s (jsLastIndexOf s jpgExt + 4)) jpgExt = true := by
  obtain ⟨m, hm, hmatch, hle⟩ := jsMatchAt_of_includes hInc
  have hjl : jpgExt.length = 4 := by decide
  rw [hjl] at hle
  rw [jsSliceZero_last hm]
  have hlen : (s.take (m + 4)).length = m + 4 := by
    rw [List.length_take]; omega
  unfold jsEndsWith
  rw [hlen, hjl]
  have hidx : m + 4 - 4 = m := by omega
  rw [hidx]
  have hdt : (s.take (m + 4)).drop m = (s.drop m).take 4 := by
    rw [List.drop_take]
    congr 1
    omega
  rw [hdt]
  have heq := of_decide_eq_true hmatch
  rw [hjl] at heq
  exact decide_eq_true heq

/-- Source `getImage(src)`: fetch and decode; if the decoded image is
empty, the URL does not end in ".jpg" but contains ".jpg", retry on the
URL truncated just after the last embedded ".jpg"; otherwise return the
decoded image.  A rejected fetch (`none`) propagates. -/
def getImage (env : FetchEnv) (src : JStr) : Option NativeImage :=
  match env.fetchDecode src with
  | none => none
  | some output =>
    if h : output.isEmpty && !jsEndsWith src jpgExt && jsIncludes src jpgExt then
      getImage env (jsSliceZero src (jsLastIndexOf src jpgExt + 4))
    else
      some output
termination_by src.length
decreasing_by
  simp only [Bool.and_eq_true, Bool.not_eq_true'] at h
  exact truncLength_lt h.2 h.1.2

/-- Closed form of `getImage`: at most one retry ever happens, and the
retry's own result (or rejection) is returned as-is. -/
theorem getImage_closed (env : FetchEnv) (src : JStr) :
    getImage env src =
      match env.fetchDecode src with
      | none => none
      | some output =>
        if output.isEmpty && !jsEndsWith src jpgExt && jsIncludes src jpgExt then
          env.fetchDecode (jsSliceZero src (jsLastIndexOf src jpgExt + 4))
        else some output := by
  rw [getImage.eq_def]
  cases hfd : env.fetchDecode src with
  | none => rfl
  | some output =>
    by_cases hc : (output.isEmpty && !jsEndsWith src jpgExt && jsIncludes src jpgExt) = true
    · simp only [hc]
      show getImage env (jsSliceZero src (jsLastIndexOf src jpgExt + 4)) =
        env.fetchDecode (jsSliceZero src (jsLastIndexOf src jpgExt + 4))
      have hc' := hc
      simp only [Bool.and_eq_true, Bool.not_eq_true'] at hc'
      have hEnds := trunc_endsWith hc'.2
      rw [getImage.eq_def]
      cases hfd2 : env.fetchDecode (jsSliceZero src (jsLastIndexOf src jpgExt + 4)) with
      | none => rfl
      | some o2 => simp [hEnds]
    · rw [Bool.not_eq_true] at hc
      simp only [hc]
      rfl

example : getImage ⟨fun _ => none⟩ "a.jpg".toList = none := by
  rw [getImage_closed]

example :
    getImage ⟨fun s => if s = "x.jpg.webp".toList then some ⟨true⟩ else none⟩
      "x.jpg.webp".toList = none := by
  rw [getImage_closed]
  decide

example :
    getImage ⟨fun s => if s = "x.jpg.webp".toList then some ⟨true⟩ else some ⟨false⟩⟩
      "x.jpg.webp".toList = some ⟨false⟩ := by
  rw [getImage_closed]
  decide

/-! ### Song-info extraction pipeline (src/providers/song-info)

The parsed player-data payload (`JSON.parse(responseText)`) is embedded
structurally; every field is an `Option`, with `none` embedding an absent
property, so the source's optional chaining (`data?.videoDetails?.title`)
becomes `Option.bind`.  A payload whose text fails to parse is embedded as
`none` at the `parsed` argument: `JSON.parse` throws before any field of
`songInfo` is assigned. -/

/-- One entry of `videoDetails.thumbnail.thumbnails`. -/
structure ThumbnailEntry where
  url : Option JStr
deriving DecidableEq, Repr

/-- The `videoDetails.thumbnail` sub-object. -/
structure ThumbnailBox where
  thumbnails : Option (List ThumbnailEntry)
deriving DecidableEq, Repr

/-- The `videoDetails` sub-object of the player data. -/
structure VideoDetails where
  title : Option JStr
  author : Option JStr
  viewCount : Option Int
  thumbnail : Option ThumbnailBox
  lengthSeconds : Option Int
deriving DecidableEq, Repr

/-- The `microformat.microformatDataRenderer` sub-object. -/
structure MicroformatDataRenderer where
  uploadDate : Option JStr
  urlCanonical : Option JStr
deriving DecidableEq, Repr

/-- The `microformat` sub-object of the player data. -/
structure Microformat where
  microformatDataRenderer : Option MicroformatDataRenderer
deriving DecidableEq, Repr

/-- The parsed player-data payload. -/
structure PlayerData where
  videoDetails : Option VideoDetails
  microformat : Option Microformat
deriving DecidableEq, Repr

/-- The shared mutable `songInfo` record of the provider. -/
structure SongInfo where
  title : Option JStr
  artist : Option JStr
  views : Option Int
  uploadDate : Option JStr
  imageSrc : Option JStr
  image : Option NativeImage
  isPaused : Option Bool
  songDuration : Option Int
  elapsedSeconds : Option Int
  url : Option JStr
deriving DecidableEq, Repr

/-- The source's initial `songInfo` record: empty strings and zeros,
`image: null`, `isPaused: undefined`. -/
def songInfo0 : SongInfo :=
  { title := some [], artist := some [], views := some 0, uploadDate := some [],
    imageSrc := some [], image := none, isPaused := none, songDuration := some 0,
    elapsedSeconds := some 0, url := some [] }

/-- Observable effects of one trigger: a `webContents.send` on the
"update-song-info" channel, or one registered callback invocation. -/
inductive Effect where
  | sendUpdateSongInfo (payload : SongInfo)
  | callbackCall (snapshot : SongInfo)
deriving DecidableEq, Repr

/-- Whether an effect is the outbound "update-song-info" broadcast. -/
def Effect.isSend : Effect → Bool
  | .sendUpdateSongInfo _ => true
  | .callbackCall _ => false

/-- JavaScript `a || b` on possibly-undefined strings: `undefined` and the
empty string are falsy. -/
def jsOrStr (a b : Option JStr) : Option JStr :=
  match a with
  | none => b
  | some s => if s = [] then b else some s

/-- The `data?.videoDetails?.thumbnail?.thumbnails?.pop()?.url` chain:
`pop()` takes the last thumbnail (highest resolution). -/
def popThumbnailUrl (d : PlayerData) : Option JStr :=
  ((((d.videoDetails.bind fun v => v.thumbnail).bind fun t =>
      t.thumbnails).bind fun l => l.getLast?).bind fun e => e.url)

/-- Source `handleData(responseText, win)`.  `parsed` is the outcome of
`JSON.parse` (`none` = throws, so no field is assigned); `domArtist` is the
value the page script of `getArtist` resolves to; `env` supplies the
thumbnail fetch.  `Except.error st` embeds the async function rejecting
with the shared record left as mutated so far; the fields are assigned in
source order, with the image fetch after title/artist/views/imageSrc/
songDuration and before uploadDate/url.  A missing `imageSrc` makes
`fetch(undefined)` reject.  On success the serialized record is sent on
"update-song-info". -/
def handleData (parsed : Option PlayerData) (domArtist : Option JStr)
    (env : FetchEnv) (st : SongInfo) : Except SongInfo (SongInfo × List Effect) :=
  match parsed with
  | none => Except.error st
  | some d =>
    let imageSrc := popThumbnailUrl d
    let st1 : SongInfo :=
      { st with
        title := cleanupName (d.videoDetails.bind fun v => v.title),
        artist := jsOrStr domArtist (cleanupName (d.videoDetails.bind fun v => v.author)),
        views := d.videoDetails.bind fun v => v.viewCount,
        imageSrc := imageSrc,
        songDuration := d.videoDetails.bind fun v => v.lengthSeconds }
    match imageSrc with
    | none => Except.error st1
    | some src =>
      match getImage env src with
      | none => Except.error st1
      | some img =>
        let st2 : SongInfo :=
          { st1 with
            image := some img,
            uploadDate := (d.microformat.bind fun m => m.microformatDataRenderer).bind
              fun r => r.uploadDate,
            url := (d.microformat.bind fun m => m.microformatDataRenderer).bind
              fun r => r.urlCanonical }
        Except.ok (st2, [Effect.sendUpdateSongInfo st2])

/-- Source `getPausedStatus(win)`: the page title containing "-" means
playing; its absence means paused. -/
def getPausedStatus (pageTitle : JStr) : Bool :=
  !jsIncludes pageTitle ['-']

/-- The "page-title-updated" handler of `registerProvider` (Trigger A):
re-read pause state and progress, mutate the two fields, and invoke every
registered callback with the shared record.  No "update-song-info" send
occurs on this path. -/
def triggerTitleUpdated (pageTitle : JStr) (progressValue : Option Int)
    (nCallbacks : Nat) (st : SongInfo) : SongInfo × List Effect :=
  let st1 : SongInfo :=
    { st with isPaused := some (getPausedStatus pageTitle), elapsedSeconds := progressValue }
  (st1, List.replicate nCallbacks (Effect.callbackCall st1))

/-- The "song-info-request" handler of `registerProvider` (Trigger B):
`await handleData(...)` then invoke every registered callback.  A rejection
of `handleData` skips the callbacks; the rejection is absorbed by the
process-level `electron-unhandled` handler installed in src/index.js
(`showDialog: false`), so the window keeps running with the record as
mutated so far. -/
def triggerSongInfoRequest (parsed : Option PlayerData) (domArtist : Option JStr)
    (env : FetchEnv) (nCallbacks : Nat) (st : SongInfo) : SongInfo × List Effect :=
  match handleData parsed domArtist env st with
  | Except.error st1 => (st1, [])
  | Except.ok (st2, effs) => (st2, effs ++ List.replicate nCallbacks (Effect.callbackCall st2))

/-! ### Plugin loader (src/index.js, `loadPlugins`) -/

/-- Environment for the loader: whether `plugins/<id>/back.js` exists, and
whether the plugin's activation entry (`handle(win, options)`) throws
synchronously. -/
structure PluginEnv where
  backendExists : String → Bool
  activationThrows : String → Bool

/-- Outcome of one plugin's load task. -/
inductive PluginOutcome where
  | skipped
  | activated
  | activationFailed
deriving DecidableEq, Repr

/-- Modelled from the spec: `fileExists` lives in src/plugins/utils, which
is not part of the provided sources.  Per the spec, a plugin whose
resolved backend path does not exist is silently skipped (not an error),
and the existence check invokes its callback asynchronously, so each
enabled plugin's require-and-activate step runs as its own task: a
synchronous throw inside one task is reported to the owning process (the
`electron-unhandled` logger) and does not unwind any other plugin's task. -/
def runPluginTask (env : PluginEnv) (plugin : String) : PluginOutcome :=
  if env.backendExists plugin then
    if env.activationThrows plugin then PluginOutcome.activationFailed
    else PluginOutcome.activated
  else PluginOutcome.skipped

/-- Source `loadPlugins(win)` restricted to its plugin iteration: the
`forEach` over the enabled descriptors schedules one independent task per
plugin, in order. -/
def loadPlugins (env : PluginEnv) (enabled : List String) : List (String × PluginOutcome) :=
  enabled.map fun p => (p, runPluginTask env p)

/-! ### Sample inputs used by witnesses -/

/-- Thumbnail URL of the sample payload. -/
def sampleUrl : JStr := "a.jpg".toList

/-- The spec's worked example payload: title "Song - Topic", author "Band",
view count 10, one thumbnail, 180 seconds. -/
def samplePlayerData : PlayerData :=
  { videoDetails := some
      { title := some "Song - Topic".toList,
        author := some "Band".toList,
        viewCount := some 10,
        thumbnail := some { thumbnails := some [{ url := some sampleUrl }] },
        lengthSeconds := some 180 },
    microformat := some
      { microformatDataRenderer := some
          { uploadDate := some "2020-01-01".toList,
            urlCanonical := some "https://x".toList } } }

/-- Fetch environment in which every URL decodes to a nonempty image. -/
def sampleEnv : FetchEnv := ⟨fun _ => some ⟨false⟩⟩

/-- The snapshot `handleData` produces from `samplePlayerData` over the
initial state with no DOM artist. -/
def sampleSnapshot : SongInfo :=
  { title := some "Song".toList, artist := some "Band".toList, views := some 10,
    uploadDate := some "2020-01-01".toList, imageSrc := some sampleUrl,
    image := some ⟨false⟩, isPaused := none, songDuration := some 180,
    elapsedSeconds := some 0, url := some "https://x".toList }

/-! ### Helper lemmas -/

/-- When the name ends with no listed suffix, the loop returns it unchanged. -/
theorem stripOneSuffix_of_none {l : List JStr} {a : JStr}
    (h : ∀ suf ∈ l, jsEndsWith a suf = false) : stripOneSuffix l a = a := by
  induction l with
  | nil => rfl
  | cons suf rest ih =>
    have hs := h suf (List.mem_cons_self suf rest)
    have hr : ∀ s ∈ rest, jsEndsWith a s = false := fun s hs2 =>
      h s (List.mem_cons_of_mem _ hs2)
    simp [stripOneSuffix, hs, ih hr]

/-- When some listed suffix matches, the loop strips exactly one listed
matching suffix. -/
theorem stripOneSuffix_first {l : List JStr} {a : JStr}
    (h : l.any (fun suf => jsEndsWith a suf) = true) :
    ∃ suf ∈ l, jsEndsWith a suf = true ∧
      stripOneSuffix l a = a.take (a.length - suf.length) := by
  induction l with
  | nil => simp at h
  | cons suf rest ih =>
    by_cases hs : jsEndsWith a suf = true
    · exact ⟨suf, List.mem_cons_self suf rest, hs, by simp [stripOneSuffix, hs]⟩
    · rw [Bool.not_eq_true] at hs
      have hrest : rest.any (fun s => jsEndsWith a s) = true := by
        simpa [List.any_cons, hs] using h
      obtain ⟨s, hmem, hend, heq⟩ := ih hrest
      exact ⟨s, List.mem_cons_of_mem _ hmem, hend, by simp [stripOneSuffix, hs, heq]⟩

/-- Deleting a header key removes it. -/
theorem hasHeader_deleteHeader_self (h : Headers) (k : JStr) :
    hasHeader (deleteHeader h k) k = false := by
  rw [Bool.eq_false_iff]
  intro hc
  unfold hasHeader deleteHeader at hc
  rw [List.any_eq_true] at hc
  obtain ⟨p, hp, hpk⟩ := hc
  have h2 := (List.mem_filter.mp hp).2
  rw [hpk] at h2
  simp at h2

/-- Deleting one key never introduces another. -/
theorem hasHeader_deleteHeader_mono {h : Headers} {k : JStr} (k2 : JStr)
    (hk : hasHeader h k = false) : hasHeader (deleteHeader h k2) k = false := by
  rw [Bool.eq_false_iff] at hk ⊢
  intro hc
  apply hk
  unfold hasHeader deleteHeader at hc
  unfold hasHeader
  rw [List.any_eq_true] at hc ⊢
  obtain ⟨p, hp, hpk⟩ := hc
  exact ⟨p, (List.mem_filter.mp hp).1, hpk⟩

/-- Entries under other keys survive a deletion. -/
theorem mem_deleteHeader {h : Headers} {p : JStr × List JStr} {k : JStr}
    (hp : p ∈ h) (hne : p.1 ≠ k) : p ∈ deleteHeader h k := by
  unfold deleteHeader
  exact List.mem_filter.mpr ⟨hp, by simp [hne]⟩

/-- A successful `handleData` sends exactly one "update-song-info" message,
carrying the state it returns. -/
theorem handleData_ok_effects {parsed : Option PlayerData} {domArtist : Option JStr}
    {env : FetchEnv} {st st2 : SongInfo} {effs : List Effect}
    (h : handleData parsed domArtist env st = Except.ok (st2, effs)) :
    effs = [Effect.sendUpdateSongInfo st2] := by
  unfold handleData at h
  cases parsed with
  | none => simp at h
  | some d =>
    cases hsrc : popThumbnailUrl d with
    | none =>
      simp only [hsrc] at h
      exact Except.noConfusion h
    | some src =>
      simp only [hsrc] at h
      cases himg : getImage env src with
      | none =>
        simp only [himg] at h
        exact Except.noConfusion h
      | some img =>
        simp only [himg, Except.ok.injEq, Prod.mk.injEq] at h
        rw [← h.2, h.1]

/-- Evaluation of `handleData` on the sample payload. -/
theorem sample_handleData :
    handleData (some samplePlayerData) none sampleEnv songInfo0 =
      Except.ok (sampleSnapshot, [Effect.sendUpdateSongInfo sampleSnapshot]) := by
  have hsrc : popThumbnailUrl samplePlayerData = some sampleUrl := by decide
  have himg : getImage sampleEnv sampleUrl = some (NativeImage.mk false) := by
    rw [getImage_closed]
    decide
  simp only [handleData, hsrc, himg]
  rfl

/-! ### Claims -/

/-- C1: at the failing input — listener L1 resolving to `{cancel: false,
responseHeaders: {A: ["1"]}}` followed by L2 resolving to `{cancel: false}`
— the source resolver produces `{cancel: false}` with L1's responseHeaders
field dropped, while the fold over the accumulator that the claim
describes (and the spec's resolution algorithm words) keeps it.  From the
second reduce step on the accumulator is a pending Promise: spreading it
contributes no fields, so a field set by an earlier listener and untouched
by later listeners is lost, contrary to the claim. -/
theorem c1_resolver_drops_earlier_fields :
    resolveResponse
        [{ cancel := some false, responseHeaders := some [("A".toList, ["1".toList])] },
         { cancel := some false, responseHeaders := none }] =
      { cancel := some false, responseHeaders := none } ∧
    (specResolverRun
        [{ cancel := some false, responseHeaders := some [("A".toList, ["1".toList])] },
         { cancel := some false, responseHeaders := none }]).1 =
      { cancel := some false, responseHeaders := some [("A".toList, ["1".toList])] } := by
  decide

/-- C2: at the failing input — L1 resolving to `{cancel: true}`, L2 to
`{cancel: false}` — the source resolver still invokes L2 (both listeners
are invoked) and resolves to `{cancel: false}`, whereas the claim requires
L2 to be skipped and the resolved result to carry `cancel: true`, as the
spec's algorithm (shown alongside) does.  `accumulator.cancel` is read off
a Promise from the second step on and is always `undefined`, so the
short-circuit never fires. -/
theorem c2_short_circuit_never_fires :
    invokedCount
        [{ cancel := some true, responseHeaders := none },
         { cancel := some false, responseHeaders := none }] = 2 ∧
    resolveResponse
        [{ cancel := some true, responseHeaders := none },
         { cancel := some false, responseHeaders := none }] =
      { cancel := some false, responseHeaders := none } ∧
    (specResolverRun
        [{ cancel := some true, responseHeaders := none },
         { cancel := some false, responseHeaders := none }]).2 = 1 ∧
    (specResolverRun
        [{ cancel := some true, responseHeaders := none },
         { cancel := some false, responseHeaders := none }]).1.cancel = some true := by
  decide

/-- C3 (counterexample): `cleanupName` is not idempotent — on
"A - Topic - Topic" one application strips one " - Topic" and a second
application strips another. -/
theorem c3_counterexample_stacked_suffixes :
    cleanupName (cleanupName (some "A - Topic - Topic".toList)) ≠
      cleanupName (some "A - Topic - Topic".toList) := by
  decide

/-- C3 (amended): name cleanup is idempotent on every input whose cleaned
result does not itself end with a listed suffix; in general a second
application can strip one further suffix. -/
theorem c3_cleanup_idempotent_when_clean :
    ∀ a : Option JStr,
      suffixesToRemove.all (fun suf => !jsEndsWith ((cleanupName a).getD []) suf) = true →
      cleanupName (cleanupName a) = cleanupName a := by
  intro a h
  match a with
  | none => rfl
  | some s =>
    by_cases hs : s = []
    · subst hs
      rfl
    · have hcl : cleanupName (some s) = some (stripOneSuffix suffixesToRemove s) := by
        simp [cleanupName, hs]
      rw [hcl] at h ⊢
      rw [List.all_eq_true] at h
      by_cases hbe : stripOneSuffix suffixesToRemove s = []
      · simp [cleanupName, hbe]
      · have hnone : ∀ suf ∈ suffixesToRemove,
            jsEndsWith (stripOneSuffix suffixesToRemove s) suf = false := by
          intro suf hmem
          simpa using h suf hmem
        simp [cleanupName, hbe, stripOneSuffix_of_none hnone]

/-- C3 (witness): the amended idempotence at the concrete input
"Band - Topic", whose cleaned form "Band" matches no suffix. -/
theorem c3_cleanup_idempotent_witness :
    cleanupName (cleanupName (some "Band - Topic".toList)) =
      cleanupName (some "Band - Topic".toList) :=
  c3_cleanup_idempotent_when_clean (some "Band - Topic".toList) (by decide)

/-- C4 (counterexample): on "Artist VEVO VEVO" the code strips the four
characters of "VEVO" and returns "Artist VEVO " with a trailing space, not
the claim's "Artist VEVO". -/
theorem c4_counterexample_trailing_space :
    cleanupName (some "Artist VEVO VEVO".toList) ≠ some "Artist VEVO".toList ∧
    cleanupName (some "Artist VEVO VEVO".toList) = some "Artist VEVO ".toList := by
  decide

/-- C4 (amended): one application of name cleanup strips at most one
matching suffix from the fixed ordered list (only when the name ends with
it) and returns the input unchanged when no suffix matches; on
"Artist VEVO VEVO" the output is "Artist VEVO " (trailing space kept,
since exactly the four characters of "VEVO" are sliced off). -/
theorem c4_strips_at_most_one_suffix :
    (∀ a : JStr, a ≠ [] →
      ((suffixesToRemove.all fun suf => !jsEndsWith a suf) = true →
        cleanupName (some a) = some a) ∧
      ((suffixesToRemove.any fun suf => jsEndsWith a suf) = true →
        ∃ suf ∈ suffixesToRemove, jsEndsWith a suf = true ∧
          cleanupName (some a) = some (a.take (a.length - suf.length)))) ∧
    cleanupName (some "Artist VEVO VEVO".toList) = some "Artist VEVO ".toList := by
  constructor
  · intro a ha
    constructor
    · intro h
      rw [List.all_eq_true] at h
      have hnone : ∀ suf ∈ suffixesToRemove, jsEndsWith a suf = false := by
        intro suf hmem
        simpa using h suf hmem
      simp [cleanupName, ha, stripOneSuffix_of_none hnone]
    · intro h
      obtain ⟨suf, hmem, hend, heq⟩ := stripOneSuffix_first h
      exact ⟨suf, hmem, hend, by simp [cleanupName, ha, heq]⟩
  · decide

/-- C4 (witness): the amended statement applied at "X" (no suffix matches,
input returned unchanged) and at "X - Topic" (one suffix stripped). -/
theorem c4_strips_at_most_one_suffix_witness :
    cleanupName (some "X".toList) = some "X".toList ∧
    (∃ suf ∈ suffixesToRemove, jsEndsWith "X - Topic".toList suf = true ∧
      cleanupName (some "X - Topic".toList) =
        some (("X - Topic".toList).take (("X - Topic".toList).length - suf.length))) :=
  ⟨(c4_strips_at_most_one_suffix.1 "X".toList (by decide)).1 (by decide),
   (c4_strips_at_most_one_suffix.1 "X - Topic".toList (by decide)).2 (by decide)⟩

/-- C5 (counterexample): a Trigger A publication — one registered
callback, page title "Song - Artist" — invokes the callback (a
publication happens) but emits no "update-song-info" send, so the
broadcast does not follow every publication. -/
theorem c5_counterexample_title_trigger_no_send :
    (triggerTitleUpdated "Song - Artist".toList (some 5) 1 songInfo0).2.length = 1 ∧
    (triggerTitleUpdated "Song - Artist".toList (some 5) 1 songInfo0).2.all
      (fun e => !e.isSend) = true := by
  decide

/-- C5 (amended): the serialized snapshot is broadcast on
"update-song-info" after every Trigger B publication (one send, preceding
the callback fan-out, carrying the published snapshot), while Trigger A
publications invoke the registered callbacks only and never emit the
broadcast. -/
theorem c5_broadcast_on_data_trigger_only :
    (∀ (parsed : Option PlayerData) (domArtist : Option JStr) (env : FetchEnv)
       (n : Nat) (st st2 : SongInfo) (effs : List Effect),
      handleData parsed domArtist env st = Except.ok (st2, effs) →
      (triggerSongInfoRequest parsed domArtist env n st).2 =
        Effect.sendUpdateSongInfo st2 :: List.replicate n (Effect.callbackCall st2)) ∧
    (∀ (pageTitle : JStr) (progressValue : Option Int) (n : Nat) (st : SongInfo),
      (triggerTitleUpdated pageTitle progressValue n st).2.all (fun e => !e.isSend) = true) := by
  constructor
  · intro parsed domArtist env n st st2 effs h
    have heffs := handleData_ok_effects h
    unfold triggerSongInfoRequest
    rw [h, heffs]
    rfl
  · intro pageTitle progressValue n st
    unfold triggerTitleUpdated
    rw [List.all_eq_true]
    intro e he
    rw [List.eq_of_mem_replicate he]
    rfl

/-- C5 (witness): the amended statement at the sample payload with two
registered callbacks. -/
theorem c5_broadcast_on_data_trigger_only_witness :
    (triggerSongInfoRequest (some samplePlayerData) none sampleEnv 2 songInfo0).2 =
      Effect.sendUpdateSongInfo sampleSnapshot ::
        List.replicate 2 (Effect.callbackCall sampleSnapshot) :=
  c5_broadcast_on_data_trigger_only.1 (some samplePlayerData) none sampleEnv 2 songInfo0
    sampleSnapshot [Effect.sendUpdateSongInfo sampleSnapshot] sample_handleData

/-- C6: a payload that fails `JSON.parse` makes that one report a no-op —
`JSON.parse` throws before any field of the shared record is assigned, the
rejected handler skips the callback fan-out, and the rejection is absorbed
by the process-level unhandled-error handler of src/index.js, so every
field of the previously held state is unchanged and nothing crashes. -/
theorem c6_parse_failure_recoverable :
    ∀ (domArtist : Option JStr) (env : FetchEnv) (n : Nat) (st : SongInfo),
      triggerSongInfoRequest none domArtist env n st = (st, []) := by
  intro _ _ _ _
  rfl

/-- C7 (counterexample): recognition of the CSP header names is exact and
case-sensitive, not case-insensitive as the claim states: a response whose
header key is "Content-Security-Policy" case-insensitively contains the
CSP header, yet the listener treats it as absent and returns the no-op
result instead of removing it. -/
theorem c7_counterexample_case_sensitive :
    hasHeaderCI [("Content-Security-Policy".toList, ["default-src".toList])] cspName = true ∧
    removeCSPListener [("Content-Security-Policy".toList, ["default-src".toList])] =
      { cancel := some false, responseHeaders := none } := by
  decide

/-- C7 (amended): the CSP relaxation listener, matching the exact
lowercase header names "content-security-policy" and
"content-security-policy-report-only" case-sensitively, always returns
`cancel: false`; it returns no responseHeaders field (headers unchanged)
when neither exact name is a key, and otherwise returns the header map
with both exact names removed and every other entry kept. -/
theorem c7_csp_listener_exact_match :
    ∀ h : Headers,
      (removeCSPListener h).cancel = some false ∧
      (hasHeader h cspReportOnlyName = false → hasHeader h cspName = false →
        (removeCSPListener h).responseHeaders = none) ∧
      (hasHeader h cspReportOnlyName = true ∨ hasHeader h cspName = true →
        ∃ h2, (removeCSPListener h).responseHeaders = some h2 ∧
          hasHeader h2 cspName = false ∧ hasHeader h2 cspReportOnlyName = false ∧
          ∀ p ∈ h, p.1 ≠ cspName → p.1 ≠ cspReportOnlyName → p ∈ h2) := by
  intro h
  refine ⟨?_, ?_, ?_⟩
  · unfold removeCSPListener
    by_cases hc : (!hasHeader h cspReportOnlyName && !hasHeader h cspName) = true
    · simp [hc]
    · rw [Bool.not_eq_true] at hc
      simp [hc]
  · intro h1 h2
    simp [removeCSPListener, h1, h2]
  · intro hor
    have hcond : (!hasHeader h cspReportOnlyName && !hasHeader h cspName) = false := by
      rcases hor with h1 | h1 <;> simp [h1]
    refine ⟨deleteHeader (deleteHeader h cspReportOnlyName) cspName, ?_, ?_, ?_, ?_⟩
    · simp [removeCSPListener, hcond]
    · exact hasHeader_deleteHeader_self _ _
    · exact hasHeader_deleteHeader_mono _ (hasHeader_deleteHeader_self _ _)
    · intro p hp hne1 hne2
      exact mem_deleteHeader (mem_deleteHeader hp hne2) hne1

/-- C7 (witness): the amended statement at a map holding the exact
lowercase CSP header and one unrelated header. -/
theorem c7_csp_listener_exact_match_witness :
    ∃ h2, (removeCSPListener
        [(cspName, ["v".toList]), ("x-a".toList, ["y".toList])]).responseHeaders = some h2 ∧
      hasHeader h2 cspName = false ∧ hasHeader h2 cspReportOnlyName = false ∧
      ∀ p ∈ [(cspName, ["v".toList]), ("x-a".toList, ["y".toList])],
        p.1 ≠ cspName → p.1 ≠ cspReportOnlyName → p ∈ h2 :=
  (c7_csp_listener_exact_match
    [(cspName, ["v".toList]), ("x-a".toList, ["y".toList])]).2.2 (Or.inr (by decide))

/-- C8 (counterexample): a fetch rejection is fatal to `getImage` — with
an environment whose fetch succeeds on "x.jpg.webp" (empty decoded image,
so the one retry on "x.jpg" is taken) but rejects on the retry URL, the
call rejects (`none`) instead of returning a decoded image, so `getImage`
is not "never fatal" under fetch failure. -/
theorem c8_counterexample_fetch_rejection_propagates :
    getImage ⟨fun s => if s = "x.jpg.webp".toList then some ⟨true⟩ else none⟩
      "x.jpg.webp".toList = none := by
  rw [getImage_closed]
  decide

/-- C8 (amended): cover-image resolution performs at most one retry,
exactly when the first decoded image is empty, the URL does not end in
".jpg" and contains ".jpg" elsewhere, truncating just after the last
embedded ".jpg"; beyond that one retry the (possibly empty) decoded image
is returned as-is, and no call raises provided every fetch involved
succeeds — but a rejected fetch propagates out of `getImage` itself. -/
theorem c8_at_most_one_retry :
    (∀ (env : FetchEnv) (src : JStr),
      getImage env src =
        match env.fetchDecode src with
        | none => none
        | some output =>
          if output.isEmpty && !jsEndsWith src jpgExt && jsIncludes src jpgExt then
            env.fetchDecode (jsSliceZero src (jsLastIndexOf src jpgExt + 4))
          else some output) ∧
    (∀ (env : FetchEnv) (src : JStr),
      (∀ u : JStr, env.fetchDecode u ≠ none) → getImage env src ≠ none) := by
  refine ⟨getImage_closed, ?_⟩
  intro env src h
  rw [getImage_closed]
  cases hfd : env.fetchDecode src with
  | none => exact absurd hfd (h src)
  | some output =>
    show (if (output.isEmpty && !jsEndsWith src jpgExt && jsIncludes src jpgExt) = true then
        env.fetchDecode (jsSliceZero src (jsLastIndexOf src jpgExt + 4))
      else some output) ≠ none
    by_cases hc : (output.isEmpty && !jsEndsWith src jpgExt && jsIncludes src jpgExt) = true
    · rw [if_pos hc]
      exact h _
    · rw [if_neg hc]
      simp

/-- C8 (witness): the amended statement at an environment whose every
fetch yields an (empty) decoded image: the call on "a.png.jpg.webp" takes
its retry and still returns without raising. -/
theorem c8_at_most_one_retry_witness :
    getImage ⟨fun _ => some ⟨true⟩⟩ "a.png.jpg.webp".toList ≠ none :=
  c8_at_most_one_retry.2 ⟨fun _ => some ⟨true⟩⟩ "a.png.jpg.webp".toList
    (fun _u h => Option.noConfusion h)

/-- C9: the loader produces one independent outcome per enabled plugin in
order — a plugin whose backend file is absent is skipped without an error,
loading is prefix-compositional (so a throwing activation in one task
leaves every later plugin's outcome what it would be anyway), and in a
run where plugin "bad" exists and throws while "good" exists and loads,
"good" is still activated. -/
theorem c9_loader_skips_and_isolates :
    (∀ (env : PluginEnv) (enabled : List String),
      (loadPlugins env enabled).length = enabled.length) ∧
    (∀ (env : PluginEnv) (enabled : List String) (k : Nat) (p : String),
      enabled[k]? = some p → env.backendExists p = false →
      (loadPlugins env enabled)[k]? = some (p, PluginOutcome.skipped)) ∧
    (∀ (env : PluginEnv) (ps : List String) (p : String) (qs : List String),
      loadPlugins env (ps ++ p :: qs) =
        loadPlugins env ps ++ (p, runPluginTask env p) :: loadPlugins env qs) ∧
    loadPlugins ⟨fun _ => true, fun p => p == "bad"⟩ ["bad", "good"] =
      [("bad", PluginOutcome.activationFailed), ("good", PluginOutcome.activated)] := by
  refine ⟨?_, ?_, ?_, ?_⟩
  · intro env enabled
    simp [loadPlugins]
  · intro env enabled k p hk hex
    simp [loadPlugins, List.getElem?_map, hk, runPluginTask, hex]
  · intro env ps p qs
    simp [loadPlugins]
  · decide

/-- C9 (witness): the skip clause at a one-plugin list whose backend is
absent. -/
theorem c9_loader_skips_and_isolates_witness :
    (loadPlugins ⟨fun _ => false, fun _ => false⟩ ["solo"])[0]? =
      some ("solo", PluginOutcome.skipped) :=
  c9_loader_skips_and_isolates.2.1 ⟨fun _ => false, fun _ => false⟩ ["solo"] 0 "solo"
    (by decide) rfl

/-- C10: `cleanupName` returns `undefined`/`null` and the empty string
unchanged (the `if (!artist)` guard), and a parsed payload with
`videoDetails.title` missing yields a state whose `title` field is that
nullish value — the title is assigned before the image fetch, so this
holds whether the publication completes or rejects later. -/
theorem c10_nullish_name_passthrough :
    cleanupName none = none ∧ cleanupName (some []) = some [] ∧
    (∀ (d : PlayerData) (domArtist : Option JStr) (env : FetchEnv) (n : Nat) (st : SongInfo),
      (d.videoDetails.bind fun v => v.title) = none →
      (triggerSongInfoRequest (some d) domArtist env n st).1.title = none) := by
  refine ⟨rfl, rfl, ?_⟩
  intro d domArtist env n st htitle
  unfold triggerSongInfoRequest handleData
  simp only [htitle]
  cases hsrc : popThumbnailUrl d with
  | none => simp [hsrc, cleanupName]
  | some src =>
    cases himg : getImage env src with
    | none => simp [hsrc, himg, cleanupName]
    | some img => simp [hsrc, himg, cleanupName]

/-- C10 (witness): the passthrough at a payload with no `videoDetails`
object at all and a rejecting fetch environment. -/
theorem c10_nullish_name_passthrough_witness :
    (triggerSongInfoRequest (some { videoDetails := none, microformat := none })
      none ⟨fun _ => none⟩ 1 songInfo0).1.title = none :=
  c10_nullish_name_passthrough.2.2 { videoDetails := none, microformat := none }
    none ⟨fun _ => none⟩ 1 songInfo0 rfl

end YtMusic
